import Mathlib

/-!
# Verification of the nmeg review pipeline core

Shallow embedding of the ingestion and weekly-analytics core of the
repository (`scraper.py`, `generate_weekly_report.py`, `pipeline.py`,
`db/setup.py`) together with proofs of the frozen claims about it.

Conventions:
* timestamps are modelled as integer seconds since the Unix epoch;
* calendar dates (`datetime(year, month, day)`) are modelled by their
  day number since the epoch via the standard civil-calendar algorithm;
* SQL result sets are modelled as Lean lists of a `Review` structure,
  and the SQL `WHERE` clauses of the aggregation queries as list filters.
-/

namespace Nmeg

/-- Day number since 1970-01-01 of the civil date `(y, m, d)`, the standard
proleptic-Gregorian day-count algorithm.  Models the date arithmetic that
Python's `datetime` performs in `generate_weekly_report.py` (construction of
`datetime(year, 1, 4)` and `timedelta` addition). -/
def daysFromCivil (y m d : Int) : Int :=
  let y' : Int := if m ≤ 2 then y - 1 else y
  let era : Int := y' / 400
  let yoe : Int := y' - era * 400
  let mp : Int := (m + 9) % 12
  let doy : Int := (153 * mp + 2) / 5 + d - 1
  let doe : Int := yoe * 365 + yoe / 4 - yoe / 100 + doy
  era * 146097 + doe - 719468

/-- `datetime(year, 1, 4)` from `generate_weekly_report.py` line 231, as a day
number. -/
def jan4 (year : Int) : Int := daysFromCivil year 1 4

/-- Python's `datetime.weekday()`: Monday = 0 … Sunday = 6.  Day 0
(1970-01-01) was a Thursday. -/
def pyWeekday (day : Int) : Int := (day + 3) % 7

/-- `week_start = jan4 - timedelta(days=jan4.weekday()) + timedelta(weeks=week-1)`
(`generate_weekly_report.py` line 232), as a day number. -/
def weekStartDay (year week : Int) : Int :=
  jan4 year - pyWeekday (jan4 year) + 7 * (week - 1)

/-- `week_end = week_start + timedelta(days=7)` (line 233), as a day number. -/
def weekEndDay (year week : Int) : Int := weekStartDay year week + 7

/-- `week_start` as a timestamp in seconds (midnight of that day). -/
def weekStartTs (year week : Int) : Int := 86400 * weekStartDay year week

/-- `week_end` as a timestamp in seconds (midnight of that day). -/
def weekEndTs (year week : Int) : Int := 86400 * weekEndDay year week

/-- The week-membership test the aggregation queries use:
`review_date >= week_start AND review_date < week_end`
(`generate_weekly_report.py` lines 291-292 and the theme queries). -/
def inWeek (year week t : Int) : Bool :=
  weekStartTs year week ≤ t && t < weekEndTs year week

/-! ## Data model

One row of the `reviews` table (`db/setup.py`), restricted to the columns the
verified code paths read.  `externalId` models the `review_id VARCHAR(255)
UNIQUE NOT NULL` column (the Trustpilot review id); `companyId` models the
`company_id` foreign key; `textEn` models the `text_en` column used by
`COALESCE(text_en, text)`. -/
structure Review where
  companyId : Nat
  externalId : String
  rating : Nat
  reviewDate : Int
  text : Option String := none
  textEn : Option String := none
  deriving Repr, DecidableEq

/-! ## Deduplication and batch writer (`scraper.py`) -/

/-- `TrustpilotScraper._should_save_review` (`scraper.py` lines 175-182):
`SELECT 1 FROM reviews WHERE review_id = %s LIMIT 1` against the persisted
store; the review is saved iff no stored row has the same `review_id`.
Note the lookup is keyed on `review_id` alone (which is globally `UNIQUE`
in the schema), not on the `(company_id, review_id)` pair. -/
def shouldSaveReview (store : List Review) (r : Review) : Bool :=
  !(store.any fun row => row.externalId = r.externalId)

/-- One `INSERT ... ON CONFLICT (review_id) DO NOTHING` statement
(`scraper.py` lines 199-227): the row is appended unless a row with the same
`review_id` already exists, in which case the statement is a no-op. -/
def insertOrIgnore (store : List Review) (r : Review) : List Review :=
  if store.any fun row => row.externalId = r.externalId then store
  else store ++ [r]

/-- `TrustpilotScraper._save_review_batch` (`scraper.py` lines 184-230):
executes the insert-or-ignore statement for each buffered row in order,
inside one transaction. -/
def saveReviewBatch (store : List Review) (batch : List Review) : List Review :=
  batch.foldl insertOrIgnore store

/-- Ingesting one page in isolation: the novelty filter of the page loop
(`scraper.py` lines 342-345) followed by a flush of the buffered rows
(lines 348-351 / 379-381). -/
def ingestPage (store : List Review) (page : List Review) : List Review :=
  saveReviewBatch store (page.filter (shouldSaveReview store))

/-- Global uniqueness of `review_id` over the store, the invariant granted by
the `UNIQUE` constraint in `db/setup.py` line 94. -/
def UniqueIds (store : List Review) : Prop :=
  store.Pairwise fun a b => a.externalId ≠ b.externalId

/-! ## The page loop of `scrape_and_save` (`scraper.py` lines 287-381)

The loop is modelled as a recursion over the list of pages the source would
serve in increasing page order; running past the end of that list models the
HTTP 404 that terminates a full scrape.  Each iteration emits a `fetchPage`
event for the request it issues; the event alphabet also has a `sleepMs`
constructor so that pacing between requests is expressible in traces. -/

/-- Externally visible actions of the page loop: issuing the HTTP request for
a page, and sleeping for a number of milliseconds.  `scrape_and_save` imports
`time` but its page loop contains no `time.sleep` call, so the model never
emits `sleepMs`. -/
inductive Event where
  | fetchPage (n : Nat)
  | sleepMs (ms : Nat)
  deriving Repr, DecidableEq

/-- Whether an event is a sleep. -/
def Event.isSleep : Event → Bool
  | .sleepMs _ => true
  | .fetchPage _ => false

/-- Mutable state of one `scrape_and_save` run: the persisted store (the
`reviews` table), `batch_buffer`, `total_inserted`, and
`consecutive_empty_pages`. -/
structure ScrapeState where
  store : List Review
  buffer : List Review
  inserted : Nat
  consecEmpty : Nat
  deriving Repr, DecidableEq

/-- The body of one loop iteration on a non-empty page, up to (but not
including) the early-stop bookkeeping (`scraper.py` lines 340-351): filter
the page through `_should_save_review` against the persisted store, append
the novel rows to the buffer, and flush the buffer when it has reached
`batch_size`.  Returns the new state and `new_saves_this_page`. -/
def processPage (batchSize : Nat) (st : ScrapeState) (page : List Review) :
    ScrapeState × Nat :=
  let novel := page.filter (shouldSaveReview st.store)
  let buf := st.buffer ++ novel
  let st' :=
    if batchSize ≤ buf.length then
      { st with store := saveReviewBatch st.store buf
                buffer := []
                inserted := st.inserted + buf.length }
    else { st with buffer := buf }
  (st', novel.length)

/-- One loop iteration on a non-empty page including the early-stop
bookkeeping (`scraper.py` lines 355-363): in incremental mode a page with
zero new saves increments `consecutive_empty_pages` and stops the loop when
the counter reaches 2; a page with at least one new save resets the counter
to 0; in full mode the counter is untouched and the loop never early-stops.
Returns (state, `new_saves_this_page`, stop?). -/
def pageOutcome (incremental : Bool) (batchSize : Nat) (st : ScrapeState)
    (page : List Review) : ScrapeState × Nat × Bool :=
  let out := processPage batchSize st page
  if incremental then
    if out.2 = 0 then
      ({ out.1 with consecEmpty := st.consecEmpty + 1 }, out.2,
        decide (2 ≤ st.consecEmpty + 1))
    else ({ out.1 with consecEmpty := 0 }, out.2, false)
  else (out.1, out.2, false)

/-- The `while True` page loop (`scraper.py` lines 287-376).  `n` is the
current value of the `page` counter; `pages` are the pages the source still
has.  An exhausted source answers the next request with 404 (lines 293-295),
an empty review list breaks the loop (lines 336-338), otherwise the page is
processed and the loop either early-stops or continues with `page + 1`.
Returns the final state and the trace of emitted events. -/
def scrapeLoop (incremental : Bool) (batchSize : Nat) :
    ScrapeState → Nat → List (List Review) → ScrapeState × List Event
  | st, n, [] => (st, [Event.fetchPage n])
  | st, n, page :: rest =>
    if page.isEmpty then (st, [Event.fetchPage n])
    else
      let out := pageOutcome incremental batchSize st page
      if out.2.2 then (out.1, [Event.fetchPage n])
      else
        let next := scrapeLoop incremental batchSize out.1 (n + 1) rest
        (next.1, Event.fetchPage n :: next.2)

/-- A fresh `scrape_and_save` run starting from a given persisted store:
empty buffer, zero inserted counter, zero consecutive-empty counter
(`scraper.py` lines 274-282). -/
def initState (store : List Review) : ScrapeState :=
  { store := store, buffer := [], inserted := 0, consecEmpty := 0 }

/-- A complete `scrape_and_save` run: the page loop starting at page 1
followed by the final flush of the remaining buffer and its addition to
`total_inserted` (`scraper.py` lines 379-381). -/
def scrapeRun (incremental : Bool) (batchSize : Nat) (store : List Review)
    (pages : List (List Review)) : ScrapeState × List Event :=
  let out := scrapeLoop incremental batchSize (initState store) 1 pages
  (if out.1.buffer.isEmpty then out.1
   else { out.1 with store := saveReviewBatch out.1.store out.1.buffer
                     buffer := []
                     inserted := out.1.inserted + out.1.buffer.length }, out.2)

/-! ## Weekly aggregation (`generate_weekly_report.py`) -/

/-- The rows the aggregation queries range over:
`WHERE company_id = %s AND review_date >= ws AND review_date < we`
(`generate_weekly_report.py` lines 290-292). -/
def weekReviews (rs : List Review) (cid : Nat) (ws we : Int) : List Review :=
  rs.filter fun r =>
    decide (r.companyId = cid) && decide (ws ≤ r.reviewDate) &&
      decide (r.reviewDate < we)

/-- Rows of the target week of a report for `(year, week)`. -/
def currentWeekReviews (rs : List Review) (cid : Nat) (year week : Int) :
    List Review :=
  weekReviews rs cid (weekStartTs year week) (weekEndTs year week)

/-- Rows of the preceding 7-day window:
`prev_week_start = week_start - timedelta(days=7)`, `prev_week_end = week_start`
(`generate_weekly_report.py` lines 309-310). -/
def prevWindowReviews (rs : List Review) (cid : Nat) (year week : Int) :
    List Review :=
  weekReviews rs cid (weekStartTs year week - 7 * 86400) (weekStartTs year week)

/-- `SUM(CASE WHEN rating >= 4 THEN 1 ELSE 0 END)` (line 270). -/
def positiveCount (l : List Review) : Nat :=
  (l.filter fun r => decide (4 ≤ r.rating)).length

/-- `SUM(CASE WHEN rating = 3 THEN 1 ELSE 0 END)` (line 271). -/
def neutralCount (l : List Review) : Nat :=
  (l.filter fun r => decide (r.rating = 3)).length

/-- `SUM(CASE WHEN rating <= 2 THEN 1 ELSE 0 END)` (line 272). -/
def negativeCount (l : List Review) : Nat :=
  (l.filter fun r => decide (r.rating ≤ 2)).length

/-- Rounding to two decimal places.  Models both SQL
`ROUND(x::numeric, 2)` and Python's `round(x, 2)` as exact rational
arithmetic; the half-way tie-breaking differences between the two are
immaterial to the properties proved here. -/
def round2 (q : ℚ) : ℚ := (round (q * 100) : ℚ) / 100

/-- `ROUND(AVG(rating)::numeric, 2)` (line 269 / 315): `NULL` on an empty row
set, otherwise the rounded mean of the ratings. -/
def avgRating (l : List Review) : Option ℚ :=
  if l.length = 0 then none
  else some (round2 (((l.map Review.rating).sum : ℚ) / l.length))

/-- `wow_volume = stat['total_reviews'] - prev_stat['total_reviews']`
(line 325). -/
def wowChange (cur prev : Nat) : Int := (cur : Int) - (prev : Int)

/-- `wow_volume_pct = (wow_volume / prev_total * 100) if prev_total > 0 else
None` (line 326), composed with the output rounding
`round(wow_volume_pct, 2) if wow_volume_pct is not None else None`
(line 415). -/
def wowChangePct (cur prev : Nat) : Option ℚ :=
  if 0 < prev then some (round2 ((((cur : ℚ) - (prev : ℚ)) / (prev : ℚ)) * 100))
  else none

/-- Python truthiness of an optional numeric value: `None` and `0` are falsy.
Used by `if stat['avg_rating'] and prev_stat['avg_rating']` (line 329). -/
def pyTruthy : Option ℚ → Bool
  | none => false
  | some q => decide (q ≠ 0)

/-- `wow_rating` (lines 328-330): `None` unless both averages are truthy,
otherwise their difference; composed with the output rounding of line 428. -/
def wowRatingChange (cur prev : Option ℚ) : Option ℚ :=
  if pyTruthy cur && pyTruthy prev then
    some (round2 (cur.getD 0 - prev.getD 0))
  else none

/-! ## Theme extraction and word-boundary matching
(`extract_themes_from_reviews`, `generate_weekly_report.py` lines 20-189)

The theme queries test `review_text ~ ('(^|[^a-z])' || term || '([^a-z]|$)')`
(line 76 and its two clones).  The regular-expression semantics is modelled
for exactly the shape of pattern this line builds: the fixed boundary groups
around a term that is spliced in by plain string concatenation.  Within the
spliced term the model gives special meaning only to `.` (the POSIX
any-character metacharacter) and treats every other character as itself; it
is therefore faithful to the POSIX semantics exactly for terms whose only
special character (if any) is `.`.  Accordingly, every theorem below that
quantifies over terms restricts them to be free of all `regexSpecials`, and
the concrete terms of the counterexamples contain no special character other
than `.`. -/

/-- Characters matched by the regex class `[a-z]` (so `[^a-z]` is its
negation). -/
def isAZ (c : Char) : Bool := 'a' ≤ c && c ≤ 'z'

/-- Characters that are special in a POSIX advanced regular expression and
would need escaping for a term to be matched literally. -/
def regexSpecials : List Char :=
  ['\\', '.', '+', '*', '?', '(', ')', '[', ']', '\x7b', '\x7d', '|', '^', '$']

/-- One character of the spliced term viewed as a regex atom: `.` matches any
character, anything else matches itself. -/
def atomMatches (p c : Char) : Bool := p = '.' || p = c

/-- The spliced term matched against a candidate slice of the text,
atom by atom. -/
def termMatches : List Char → List Char → Bool
  | [], [] => true
  | p :: ps, c :: cs => atomMatches p c && termMatches ps cs
  | _, _ => false

/-- Left context check of the pattern: position `i` is the string start or is
preceded by a character outside `[a-z]`. -/
def boundaryBefore (t : List Char) (i : Nat) : Bool :=
  i = 0 || !isAZ (t.getD (i - 1) ' ')

/-- Right context check of the pattern: position `j` is the string end or
holds a character outside `[a-z]`. -/
def boundaryAfter (t : List Char) (j : Nat) : Bool :=
  t.length ≤ j || !isAZ (t.getD j ' ')

/-- `review_text ~ ('(^|[^a-z])' || term || '([^a-z]|$)')`
(`generate_weekly_report.py` line 76): some position of the text starts a
slice matched by the spliced term, with both context checks satisfied. -/
def sqlTermMatch (text term : String) : Bool :=
  let t := text.toList
  let p := term.toList
  (List.range (t.length + 1)).any fun i =>
    termMatches p ((t.drop i).take p.length) && boundaryBefore t i &&
      boundaryAfter t (i + p.length)

/-- The match expression as the SQL of line 76 builds it: the term spliced in
by plain `||` concatenation, with no escaping step. -/
def buildPattern (term : String) : String :=
  "(^|[^a-z])" ++ term ++ "([^a-z]|$)"

/-- Modelled from the spec: `Term-to-pattern conversion must escape any
regex-special characters present in a search term before building the match
expression` together with the matching rule of spec section 4.4 — the term
taken as a literal string, occurring as a whole word.  Executable
counterpart of `WholeWordOccurrence` below. -/
def specLiteralWholeWordMatch (text term : String) : Bool :=
  let t := text.toList
  let p := term.toList
  (List.range (t.length + 1)).any fun i =>
    decide ((t.drop i).take p.length = p) && boundaryBefore t i &&
      boundaryAfter t (i + p.length)

/-- The claim's wording, declaratively: the term occurs literally at some
position of the text, bounded on both sides by a non-letter character or by
the string boundary. -/
def WholeWordOccurrence (t p : List Char) : Prop :=
  ∃ i, i + p.length ≤ t.length ∧ (t.drop i).take p.length = p ∧
    (i = 0 ∨ ∃ c, t.getD (i - 1) ' ' = c ∧ isAZ c = false) ∧
    (i + p.length = t.length ∨
      ∃ c, t.getD (i + p.length) ' ' = c ∧ isAZ c = false)

/-- A topic of the `topics` table (`db/setup.py` lines 120-126): a unique
key, a display name and the literal search terms. -/
structure Topic where
  topicKey : String
  topicName : String
  searchTerms : List String
  deriving Repr, DecidableEq

/-- One review text matching a topic, as in the `topic_matches` CTE of
`extract_themes_from_reviews` (lines 68-78): the cross join with
`unnest(t.search_terms)` makes the topic match iff at least one search term
matches the text. -/
def topicMatchesText (topic : Topic) (rtext : String) : Bool :=
  topic.searchTerms.any fun term => sqlTermMatch rtext term

/-- SQL `LOWER()` on the texts of interest: each character lower-cased (the
embedding covers the ASCII range, which is all the matching class `[a-z]`
distinguishes). -/
def lowerString (s : String) : String := ⟨s.toList.map Char.toLower⟩

/-- The working text of a review in the theme queries: rows with `text IS
NULL` are excluded, the rest use `LOWER(COALESCE(text_en, text))`
(lines 59, 66). -/
def reviewWorkingText (r : Review) : Option String :=
  match r.text with
  | none => none
  | some t => some (lowerString (r.textEn.getD t))

/-! ## Pipeline session use (`pipeline.py`) -/

/-- Parameter count of `generate_weekly_report` as defined at
`generate_weekly_report.py` line 191: `(company_name, iso_week)`. -/
def generateWeeklyReportParamCount : Nat := 2

/-- Argument count of the call `generate_weekly_report(self.db, domain,
iso_week)` at `pipeline.py` line 168. -/
def pipelineReportCallArgCount : Nat := 3

/-- Storage sessions constructed inside one `generate_weekly_report` call:
line 203 executes `db = Database()` (and line 475 closes it), so each call
builds and tears down its own connection instead of borrowing one. -/
def sessionsConstructedPerReportCall : Nat := 1

/-! ## Concrete sample data (used by the witness theorems)

`weekStartTs 2026 4 = 86400 * 20472 = 1768780800` (2026-01-19, a Monday);
the preceding window starts at `1768780800 - 604800 = 1768176000`. -/

/-- A review timestamped exactly at the start of 2026-W04. -/
def week4Review : Review :=
  { companyId := 1, externalId := "rev-w4", rating := 5,
    reviewDate := 1768780800 }

/-- A review inside the 7-day window preceding 2026-W04. -/
def week3Review : Review :=
  { companyId := 1, externalId := "rev-w3", rating := 4,
    reviewDate := 1768176000 }

/-- A sample novel review. -/
def sampleReviewA : Review :=
  { companyId := 1, externalId := "rev-a", rating := 5, reviewDate := 0 }

/-- A second sample novel review with a distinct external id. -/
def sampleReviewB : Review :=
  { companyId := 1, externalId := "rev-b", rating := 2, reviewDate := 0 }

/-- First occurrence of a duplicated external id. -/
def dupReview1 : Review :=
  { companyId := 1, externalId := "rev-dup", rating := 5, reviewDate := 0 }

/-- Second occurrence of the same external id. -/
def dupReview2 : Review :=
  { companyId := 1, externalId := "rev-dup", rating := 4, reviewDate := 0 }

/-- A review whose text contains `car` as a whole word. -/
def carReview : Review :=
  { companyId := 1, externalId := "rev-car", rating := 5,
    reviewDate := 1768780800, text := some "My car broke" }

/-- A review whose text contains `car` only inside `care`. -/
def careReview : Review :=
  { companyId := 1, externalId := "rev-care", rating := 5,
    reviewDate := 1768780800, text := some "I love this care package" }

/-- A topic with the single literal search term `car`. -/
def vehicleTopic : Topic :=
  { topicKey := "vehicle", topicName := "Vehicle", searchTerms := ["car"] }

/-- A topic whose single search term contains the regex-special character
`.`. -/
def dottedTopic : Topic :=
  { topicKey := "acid", topicName := "Acid", searchTerms := ["a.c"] }

/-! ## Theorems -/

/-- C1: for every year and week number parsed from an ISO-week token, the
weekly aggregator computes `week_start` as the Monday of the week containing
January 4th of that year plus `(week-1)*7` days, and
`week_end = week_start + 7` days treated as an exclusive upper bound: a
review timestamped exactly at `week_start` is counted in that week, a review
timestamped strictly before `week_start` (within the prior week's range)
belongs to the prior week, a review timestamped exactly at `week_end`
belongs to the next week, and `week_start` always falls on a Monday. -/
theorem iso_week_window_correct (year week t : Int) (_hw : 2 ≤ week) :
    weekStartDay year week
        = jan4 year - pyWeekday (jan4 year) + 7 * (week - 1) ∧
    weekEndDay year week = weekStartDay year week + 7 ∧
    pyWeekday (weekStartDay year week) = 0 ∧
    inWeek year week (weekStartTs year week) = true ∧
    (weekStartTs year (week - 1) ≤ t → t < weekStartTs year week →
      inWeek year (week - 1) t = true ∧ inWeek year week t = false) ∧
    inWeek year week (weekEndTs year week) = false ∧
    inWeek year (week + 1) (weekEndTs year week) = true := by
  refine ⟨rfl, rfl, ?_, ?_, fun h1 h2 => ⟨?_, ?_⟩, ?_, ?_⟩ <;>
    simp only [inWeek, weekStartTs, weekEndTs, weekEndDay, weekStartDay,
      pyWeekday, Bool.and_eq_true, decide_eq_true_eq,
      Bool.and_eq_false_iff, decide_eq_false_iff_not] at * <;>
    omega

/-- Witness for C1 at year 2026, week 4, with a timestamp one second before
`week_start`. -/
theorem iso_week_window_correct_witness :
    pyWeekday (weekStartDay 2026 4) = 0 ∧
    inWeek 2026 4 (weekStartTs 2026 4) = true ∧
    inWeek 2026 3 (weekStartTs 2026 4 - 1) = true ∧
    inWeek 2026 4 (weekStartTs 2026 4 - 1) = false ∧
    inWeek 2026 4 (weekEndTs 2026 4) = false ∧
    inWeek 2026 5 (weekEndTs 2026 4) = true := by
  obtain ⟨-, -, h1, h2, h3, h4, h5⟩ :=
    iso_week_window_correct 2026 4 (weekStartTs 2026 4 - 1) (by decide)
  obtain ⟨h3a, h3b⟩ := h3 (by decide) (by decide)
  exact ⟨h1, h2, by simpa using h3a, h3b, h4, by simpa using h5⟩

/-- Helper: how one more row changes a filtered count. -/
theorem length_filter_cons (p : Review → Bool) (r : Review) (l : List Review) :
    (List.filter p (r :: l)).length
      = (if p r then 1 else 0) + (List.filter p l).length := by
  by_cases h : p r = true
  · simp [List.filter_cons, h, Nat.add_comm]
  · simp [List.filter_cons, h]

/-- Helper for C5: the three sentiment-bucket counts sum to the row count on
any list of reviews. -/
theorem bucket_counts_sum (l : List Review) :
    positiveCount l + neutralCount l + negativeCount l = l.length := by
  induction l with
  | nil => rfl
  | cons r l ih =>
    have e1 := length_filter_cons (fun r => decide (4 ≤ r.rating)) r l
    have e2 := length_filter_cons (fun r => decide (r.rating = 3)) r l
    have e3 := length_filter_cons (fun r => decide (r.rating ≤ 2)) r l
    simp only [positiveCount, neutralCount, negativeCount] at ih ⊢
    rw [e1, e2, e3, List.length_cons]
    by_cases h1 : 4 ≤ r.rating <;> by_cases h2 : r.rating = 3 <;>
      by_cases h3 : r.rating ≤ 2 <;> simp [h1, h2, h3] <;> omega

/-- C5: for every computed week in which every review's rating is an integer
in 1..5, the sentiment buckets (positive: rating ≥ 4, neutral: rating = 3,
negative: rating ≤ 2) are exhaustive and mutually exclusive, so
`positive_count + neutral_count + negative_count = total_reviews`. -/
theorem sentiment_buckets_partition (rs : List Review) (cid : Nat)
    (year week : Int)
    (_hr : ∀ r ∈ rs, 1 ≤ r.rating ∧ r.rating ≤ 5) :
    positiveCount (currentWeekReviews rs cid year week) +
        neutralCount (currentWeekReviews rs cid year week) +
        negativeCount (currentWeekReviews rs cid year week) =
      (currentWeekReviews rs cid year week).length ∧
    ∀ r ∈ currentWeekReviews rs cid year week,
      (4 ≤ r.rating ∧ ¬ r.rating = 3 ∧ ¬ r.rating ≤ 2) ∨
      (¬ 4 ≤ r.rating ∧ r.rating = 3 ∧ ¬ r.rating ≤ 2) ∨
      (¬ 4 ≤ r.rating ∧ ¬ r.rating = 3 ∧ r.rating ≤ 2) := by
  exact ⟨bucket_counts_sum _, fun r _ => by omega⟩

/-- Witness for C5 on a concrete two-review store in 2026-W04. -/
theorem sentiment_buckets_partition_witness :
    positiveCount (currentWeekReviews [week4Review, week3Review] 1 2026 4) +
        neutralCount (currentWeekReviews [week4Review, week3Review] 1 2026 4) +
        negativeCount (currentWeekReviews [week4Review, week3Review] 1 2026 4) =
      (currentWeekReviews [week4Review, week3Review] 1 2026 4).length :=
  (sentiment_buckets_partition [week4Review, week3Review] 1 2026 4
    (by decide)).1

/-- Helper: unfolding one step of a batch write. -/
theorem saveReviewBatch_cons (store : List Review) (a : Review)
    (batch : List Review) :
    saveReviewBatch store (a :: batch)
      = saveReviewBatch (insertOrIgnore store a) batch := rfl

/-- Helper: rows already stored survive one insert-or-ignore statement. -/
theorem mem_insertOrIgnore_of_mem {store : List Review} {a r : Review}
    (h : r ∈ store) : r ∈ insertOrIgnore store a := by
  unfold insertOrIgnore
  split
  · exact h
  · exact List.mem_append_left _ h

/-- Helper: rows already stored survive a whole batch write. -/
theorem mem_saveReviewBatch_of_mem {store batch : List Review} {r : Review}
    (h : r ∈ store) : r ∈ saveReviewBatch store batch := by
  induction batch generalizing store with
  | nil => exact h
  | cons a batch ih => exact ih (mem_insertOrIgnore_of_mem h)

/-- Helper: after an insert-or-ignore of `a`, some stored row carries
`a.externalId`. -/
theorem idIn_insertOrIgnore_self (store : List Review) (a : Review) :
    ∃ row ∈ insertOrIgnore store a, row.externalId = a.externalId := by
  unfold insertOrIgnore
  split
  · next h =>
    rcases List.any_eq_true.mp h with ⟨row, hmem, hid⟩
    exact ⟨row, hmem, of_decide_eq_true hid⟩
  · exact ⟨a, List.mem_append_right _ (List.mem_singleton.mpr rfl), rfl⟩

/-- Helper: after a batch write, every id of the batch has a stored row. -/
theorem idIn_saveReviewBatch_of_mem_batch {batch : List Review}
    (store : List Review) {r : Review} (h : r ∈ batch) :
    ∃ row ∈ saveReviewBatch store batch, row.externalId = r.externalId := by
  induction batch generalizing store with
  | nil => cases h
  | cons a batch ih =>
    rw [saveReviewBatch_cons]
    rcases List.mem_cons.mp h with rfl | h
    · rcases idIn_insertOrIgnore_self store r with ⟨row, hm, hid⟩
      exact ⟨row, mem_saveReviewBatch_of_mem hm, hid⟩
    · exact ih _ h

/-- Helper: the novelty check answers `false` as soon as some stored row has
the review's id. -/
theorem shouldSaveReview_eq_false {store : List Review} {r : Review}
    (h : ∃ row ∈ store, row.externalId = r.externalId) :
    shouldSaveReview store r = false := by
  rcases h with ⟨row, hm, hid⟩
  have hany : (store.any fun row => row.externalId = r.externalId) = true :=
    List.any_eq_true.mpr ⟨row, hm, by simp [hid]⟩
  simp [shouldSaveReview, hany]

/-- Helper: insert-or-ignore preserves global id uniqueness. -/
theorem uniqueIds_insertOrIgnore {store : List Review} (a : Review)
    (h : UniqueIds store) : UniqueIds (insertOrIgnore store a) := by
  unfold insertOrIgnore
  split
  · exact h
  · next hany =>
    rw [UniqueIds, List.pairwise_append]
    refine ⟨h, List.pairwise_singleton _ _, ?_⟩
    intro b hb c hc
    rcases List.mem_singleton.mp hc with rfl
    intro hEq
    exact hany (List.any_eq_true.mpr ⟨b, hb, by simp [hEq]⟩)

/-- Helper: a batch write preserves global id uniqueness. -/
theorem uniqueIds_saveReviewBatch (store batch : List Review)
    (h : UniqueIds store) : UniqueIds (saveReviewBatch store batch) := by
  induction batch generalizing store with
  | nil => exact h
  | cons a batch ih => exact ih _ (uniqueIds_insertOrIgnore a h)

/-- C2: for every brand, no two stored review records share the same
(brand, external_id) — a consequence of the global uniqueness of
`review_id` enforced by the novelty check plus insert-or-ignore — and
ingestion is idempotent: re-ingesting the same page against the resulting
store inserts zero new rows (the store is unchanged). -/
theorem ingestion_unique_and_idempotent (store page : List Review)
    (h : UniqueIds store) :
    UniqueIds (ingestPage store page) ∧
    List.Pairwise
      (fun a b => (a.companyId, a.externalId) ≠ (b.companyId, b.externalId))
      (ingestPage store page) ∧
    ingestPage (ingestPage store page) page = ingestPage store page := by
  have hu : UniqueIds (ingestPage store page) :=
    uniqueIds_saveReviewBatch _ _ h
  refine ⟨hu, ?_, ?_⟩
  · exact hu.imp fun hne hpair => hne (congrArg Prod.snd hpair)
  · have hall : ∀ r ∈ page,
        shouldSaveReview (ingestPage store page) r = false := by
      intro r hr
      by_cases hnov : shouldSaveReview store r = true
      · have hmem : r ∈ page.filter (shouldSaveReview store) :=
          List.mem_filter.mpr ⟨hr, hnov⟩
        exact shouldSaveReview_eq_false
          (idIn_saveReviewBatch_of_mem_batch _ hmem)
      · have hany : (store.any fun row => row.externalId = r.externalId)
            = true := by
          revert hnov
          unfold shouldSaveReview
          cases store.any fun row => row.externalId = r.externalId <;> simp
        rcases List.any_eq_true.mp hany with ⟨row, hm, hid⟩
        exact shouldSaveReview_eq_false
          ⟨row, mem_saveReviewBatch_of_mem hm, of_decide_eq_true hid⟩
    have hnil : page.filter (shouldSaveReview (ingestPage store page)) = [] :=
      List.filter_eq_nil_iff.mpr fun r hr => by simp [hall r hr]
    rw [ingestPage, hnil]
    rfl

/-- Witness for C2 on a concrete empty store and a two-review page. -/
theorem ingestion_unique_and_idempotent_witness :
    UniqueIds (ingestPage [] [sampleReviewA, sampleReviewB]) ∧
    ingestPage (ingestPage [] [sampleReviewA, sampleReviewB])
        [sampleReviewA, sampleReviewB]
      = ingestPage [] [sampleReviewA, sampleReviewB] := by
  have h := ingestion_unique_and_idempotent [] [sampleReviewA, sampleReviewB]
    List.Pairwise.nil
  exact ⟨h.1, h.2.2⟩

/-- Helper: membership in a week window implies membership in the store. -/
theorem mem_of_mem_weekReviews {rs : List Review} {cid : Nat} {ws we : Int}
    {r : Review} (h : r ∈ weekReviews rs cid ws we) : r ∈ rs :=
  (List.mem_filter.mp h).1

/-- Helper: with every rating at least 1, the rating sum dominates the row
count. -/
theorem length_le_sum_ratings {l : List Review}
    (h : ∀ r ∈ l, 1 ≤ r.rating) :
    l.length ≤ (l.map Review.rating).sum := by
  induction l with
  | nil => simp
  | cons r l ih =>
    simp only [List.map_cons, List.sum_cons, List.length_cons]
    have h1 := h r (List.mem_cons_self r l)
    have h2 := ih fun x hx => h x (List.mem_cons_of_mem _ hx)
    omega

/-- Helper: two-decimal rounding keeps values that are at least 1 at least
1. -/
theorem round2_ge_one {q : ℚ} (h : 1 ≤ q) : 1 ≤ round2 q := by
  unfold round2
  rw [round_eq]
  have hfl : (100 : ℤ) ≤ ⌊q * 100 + 1 / 2⌋ := by
    apply Int.le_floor.mpr
    push_cast
    linarith
  have hq : (100 : ℚ) ≤ (⌊q * 100 + 1 / 2⌋ : ℚ) := by exact_mod_cast hfl
  linarith

/-- Helper: a defined weekly average of ratings that are all at least 1 is
itself at least 1. -/
theorem avgRating_ge_one {l : List Review} (h : ∀ r ∈ l, 1 ≤ r.rating)
    {q : ℚ} (hq : avgRating l = some q) : 1 ≤ q := by
  unfold avgRating at hq
  by_cases hlen : l.length = 0
  · rw [if_pos hlen] at hq
    cases hq
  · rw [if_neg hlen] at hq
    have hq' := Option.some.inj hq
    subst hq'
    apply round2_ge_one
    have hpos : (0 : ℚ) < (l.length : ℚ) := by
      exact_mod_cast Nat.pos_of_ne_zero hlen
    rw [one_le_div hpos]
    exact_mod_cast length_le_sum_ratings h

/-- Helper: the WoW rating change is defined exactly when both averages are
defined, given all ratings are at least 1. -/
theorem wowRatingChange_isSome_iff (c p : List Review)
    (hc : ∀ r ∈ c, 1 ≤ r.rating) (hp : ∀ r ∈ p, 1 ≤ r.rating) :
    (wowRatingChange (avgRating c) (avgRating p)).isSome = true ↔
      (avgRating c).isSome = true ∧ (avgRating p).isSome = true := by
  rcases hcc : avgRating c with _ | qc
  · simp [wowRatingChange, pyTruthy]
  · rcases hpp : avgRating p with _ | qp
    · simp [wowRatingChange, pyTruthy]
    · have h1 : 1 ≤ qc := avgRating_ge_one hc hcc
      have h2 : 1 ≤ qp := avgRating_ge_one hp hpp
      have t1 : pyTruthy (some qc) = true := by
        simp only [pyTruthy, decide_eq_true_eq]
        intro h0
        rw [h0] at h1
        norm_num at h1
      have t2 : pyTruthy (some qp) = true := by
        simp only [pyTruthy, decide_eq_true_eq]
        intro h0
        rw [h0] at h2
        norm_num at h2
      simp [wowRatingChange, t1, t2]

/-- C3: for every weekly report, `wow_change` equals the current week's
total minus the previous 7-day window's total; `wow_change_pct` is null
whenever the previous window's total is zero (the guarded definition never
divides), and defined otherwise; and the week-over-week rating change is
defined iff both the current and the previous average ratings exist. -/
theorem wow_fields_guarded (rs : List Review) (cid : Nat) (year week : Int)
    (hr : ∀ r ∈ rs, 1 ≤ r.rating) :
    wowChange (currentWeekReviews rs cid year week).length
        (prevWindowReviews rs cid year week).length
      = ((currentWeekReviews rs cid year week).length : Int)
        - ((prevWindowReviews rs cid year week).length : Int) ∧
    ((prevWindowReviews rs cid year week).length = 0 →
      wowChangePct (currentWeekReviews rs cid year week).length
        (prevWindowReviews rs cid year week).length = none) ∧
    (0 < (prevWindowReviews rs cid year week).length →
      (wowChangePct (currentWeekReviews rs cid year week).length
        (prevWindowReviews rs cid year week).length).isSome = true) ∧
    ((wowRatingChange (avgRating (currentWeekReviews rs cid year week))
        (avgRating (prevWindowReviews rs cid year week))).isSome = true ↔
      (avgRating (currentWeekReviews rs cid year week)).isSome = true ∧
      (avgRating (prevWindowReviews rs cid year week)).isSome = true) := by
  refine ⟨rfl, ?_, ?_, ?_⟩
  · intro h
    simp [wowChangePct, h]
  · intro h
    simp [wowChangePct, h]
  · exact wowRatingChange_isSome_iff _ _
      (fun r hm => hr r (mem_of_mem_weekReviews hm))
      (fun r hm => hr r (mem_of_mem_weekReviews hm))

/-- Witness for C3 on a concrete store with one review in 2026-W04 and one
in the preceding window. -/
theorem wow_fields_guarded_witness :
    (0 < (prevWindowReviews [week4Review, week3Review] 1 2026 4).length →
      (wowChangePct
        (currentWeekReviews [week4Review, week3Review] 1 2026 4).length
        (prevWindowReviews [week4Review, week3Review] 1 2026 4).length).isSome
        = true) ∧
    ((wowRatingChange
        (avgRating (currentWeekReviews [week4Review, week3Review] 1 2026 4))
        (avgRating (prevWindowReviews [week4Review, week3Review] 1 2026 4))).isSome
        = true ↔
      (avgRating (currentWeekReviews [week4Review, week3Review] 1 2026 4)).isSome
        = true ∧
      (avgRating (prevWindowReviews [week4Review, week3Review] 1 2026 4)).isSome
        = true) := by
  have h := wow_fields_guarded [week4Review, week3Review] 1 2026 4 (by decide)
  exact ⟨h.2.2.1, h.2.2.2⟩

/-- Helper: a negative novelty answer exhibits a stored row with the id. -/
theorem exists_of_shouldSave_false {store : List Review} {r : Review}
    (h : shouldSaveReview store r = false) :
    ∃ row ∈ store, row.externalId = r.externalId := by
  have hany : (store.any fun row => row.externalId = r.externalId) = true := by
    revert h
    unfold shouldSaveReview
    cases store.any fun row => row.externalId = r.externalId <;> simp
  rcases List.any_eq_true.mp hany with ⟨row, hm, hid⟩
  exact ⟨row, hm, of_decide_eq_true hid⟩

/-- Helper: a page with no novel records against a store stays without novel
records after any batch write into that store (batch writes only add rows). -/
theorem filter_shouldSave_nil_saveBatch {page store : List Review}
    (l : List Review) (h : page.filter (shouldSaveReview store) = []) :
    page.filter (shouldSaveReview (saveReviewBatch store l)) = [] := by
  apply List.filter_eq_nil_iff.mpr
  intro r hr
  have h0 : shouldSaveReview store r = false := by
    have hne := List.filter_eq_nil_iff.mp h r hr
    cases hss : shouldSaveReview store r
    · rfl
    · exact absurd hss hne
  rcases exists_of_shouldSave_false h0 with ⟨row, hm, hid⟩
  have hsf : shouldSaveReview (saveReviewBatch store l) r = false :=
    shouldSaveReview_eq_false ⟨row, mem_saveReviewBatch_of_mem hm, hid⟩
  simp [hsf]

/-- Helper: processing a page with no novel records reports zero new saves,
leaves the consecutive-empty counter as is, and changes the store at most by
flushing the pre-existing buffer. -/
theorem processPage_no_novel (bs : Nat) (st : ScrapeState)
    (page : List Review) (h : page.filter (shouldSaveReview st.store) = []) :
    processPage bs st page
      = (if bs ≤ st.buffer.length then
          { st with store := saveReviewBatch st.store st.buffer
                    buffer := []
                    inserted := st.inserted + st.buffer.length }
         else st, 0) := by
  simp [processPage, h]

/-- Helper: in incremental mode, a page with no novel records increments the
consecutive-empty counter and stops the loop iff the counter reaches 2. -/
theorem pageOutcome_no_novel (bs : Nat) (st : ScrapeState)
    (page : List Review) (h : page.filter (shouldSaveReview st.store) = []) :
    pageOutcome true bs st page
      = ({ (processPage bs st page).1 with consecEmpty := st.consecEmpty + 1 },
         0, decide (2 ≤ st.consecEmpty + 1)) := by
  have h2 : (processPage bs st page).2 = 0 := by
    rw [processPage_no_novel bs st page h]
  unfold pageOutcome
  simp [h2]

/-- Helper: a non-empty list is not `isEmpty`. -/
theorem isEmpty_eq_false_of_ne_nil {l : List Review} (h : l ≠ []) :
    l.isEmpty = false := by
  cases l with
  | nil => exact absurd rfl h
  | cons x xs => rfl

/-- C4: in incremental mode, pagination stops as soon as two consecutive
pages each contribute zero previously-unseen records: from any loop state
with a zeroed consecutive counter, if the next two pages are non-empty and
contribute no novel records, exactly those two pages are fetched and the
pages after them are never requested; and a page contributing at least one
novel record resets the consecutive counter and never stops the loop. -/
theorem incremental_early_stop (bs : Nat) (st : ScrapeState) (n : Nat)
    (a b : List Review) (rest : List (List Review))
    (hc : st.consecEmpty = 0) (ha : a ≠ []) (hb : b ≠ [])
    (hna : a.filter (shouldSaveReview st.store) = [])
    (hnb : b.filter (shouldSaveReview st.store) = []) :
    (scrapeLoop true bs st n (a :: b :: rest)).2
      = [Event.fetchPage n, Event.fetchPage (n + 1)] ∧
    ∀ (st' : ScrapeState) (page : List Review) (bs' : Nat),
      0 < (page.filter (shouldSaveReview st'.store)).length →
      (pageOutcome true bs' st' page).1.consecEmpty = 0 ∧
      (pageOutcome true bs' st' page).2.2 = false := by
  constructor
  · have haE := isEmpty_eq_false_of_ne_nil ha
    have hbE := isEmpty_eq_false_of_ne_nil hb
    have houtA := pageOutcome_no_novel bs st a hna
    rw [hc] at houtA
    -- the store after page `a`: at most the old buffer was flushed into it
    have hstoreA : ∃ l, (processPage bs st a).1.store = saveReviewBatch st.store l := by
      rw [processPage_no_novel bs st a hna]
      split
      · exact ⟨st.buffer, rfl⟩
      · exact ⟨[], rfl⟩
    rcases hstoreA with ⟨l, hl⟩
    have hnbA : b.filter (shouldSaveReview
        ({ (processPage bs st a).1 with consecEmpty := 0 + 1 } : ScrapeState).store) = [] := by
      show b.filter (shouldSaveReview (processPage bs st a).1.store) = []
      rw [hl]
      exact filter_shouldSave_nil_saveBatch l hnb
    have houtB := pageOutcome_no_novel bs
      ({ (processPage bs st a).1 with consecEmpty := 0 + 1 }) b hnbA
    rw [scrapeLoop]
    rw [haE]
    rw [if_neg (show ¬ (false = true) by simp)]
    rw [houtA]
    dsimp only
    rw [if_neg (show ¬ ((decide (2 ≤ 0 + 1)) = true) by decide)]
    rw [scrapeLoop]
    rw [hbE]
    rw [if_neg (show ¬ (false = true) by simp)]
    rw [houtB]
    dsimp only
    rw [if_pos (show (decide (2 ≤ 0 + 1 + 1)) = true by decide)]
  · intro st' page bs' hpos
    have h2 : (processPage bs' st' page).2
        = (page.filter (shouldSaveReview st'.store)).length := rfl
    have hne : ¬ (processPage bs' st' page).2 = 0 := by omega
    unfold pageOutcome
    simp [hne]

/-- Witness for C4: a seeded store, pages 3 and 4 with only already-stored
records, and a page 5 holding a novel record that is never fetched. -/
theorem incremental_early_stop_witness :
    (scrapeLoop true 20
        { store := [sampleReviewA, sampleReviewB], buffer := [],
          inserted := 0, consecEmpty := 0 }
        3 [[sampleReviewA], [sampleReviewB], [week4Review]]).2
      = [Event.fetchPage 3, Event.fetchPage 4] ∧
    (pageOutcome true 20
        { store := [], buffer := [], inserted := 0, consecEmpty := 1 }
        [week4Review]).1.consecEmpty = 0 := by
  have h := incremental_early_stop 20
    { store := [sampleReviewA, sampleReviewB], buffer := [],
      inserted := 0, consecEmpty := 0 }
    3 [sampleReviewA] [sampleReviewB] [[week4Review]]
    rfl (by decide) (by decide) (by decide) (by decide)
  refine ⟨h.1, ?_⟩
  exact (h.2 { store := [], buffer := [], inserted := 0, consecEmpty := 1 }
    [week4Review] 20 (by decide)).1

/-- Helper: the page loop's event trace never contains a sleep event — the
loop body of `scrape_and_save` issues requests back to back with no
`time.sleep` between them. -/
theorem scrapeLoop_no_sleep (incr : Bool) (bs : Nat) (st : ScrapeState)
    (n : Nat) (pages : List (List Review)) :
    (scrapeLoop incr bs st n pages).2.filter Event.isSleep = [] := by
  induction pages generalizing st n with
  | nil => rfl
  | cons page rest ih =>
    rw [scrapeLoop]
    by_cases hp : page.isEmpty = true
    · rw [if_pos hp]
      rfl
    · rw [if_neg hp]
      by_cases hs : (pageOutcome incr bs st page).2.2 = true
      · rw [if_pos hs]
        rfl
      · rw [if_neg hs]
        dsimp only
        rw [List.filter_cons]
        simp only [Event.isSleep, Bool.false_eq_true, if_false]
        exact ih _ _

/-- C9 (counterexample to the claimed inter-fetch delay): a concrete
incremental two-page run issues its page requests back to back — the trace
is three consecutive fetches (the third one answered by the 404 signal)
with no sleep event anywhere between them. -/
theorem scrape_no_delay_counterexample :
    (scrapeRun false 100 [] [[sampleReviewA], [sampleReviewB]]).2
      = [Event.fetchPage 1, Event.fetchPage 2, Event.fetchPage 3] ∧
    ((scrapeRun false 100 [] [[sampleReviewA], [sampleReviewB]]).2.filter
        Event.isSleep) = [] := by
  constructor <;> decide

/-- C9 (amended): no delay at all separates successive page fetches — in
every run, in either mode, the event trace of the page loop (and hence of a
whole `scrape_and_save` run) contains no sleep event between any two
fetches. -/
theorem scrape_run_never_sleeps (incr : Bool) (bs : Nat)
    (store : List Review) (pages : List (List Review)) :
    (scrapeRun incr bs store pages).2.filter Event.isSleep = [] :=
  scrapeLoop_no_sleep incr bs (initState store) 1 pages

/-- C10: novelty is decided only against persisted rows, never against the
in-memory buffer: if the same external id arrives on two pages before any
flush, both occurrences are buffered and both are counted in the reported
inserted total, yet the flushed store gains exactly one row for that id and
stays duplicate-free — the reported total (2) exceeds the rows actually
written (1). -/
theorem buffer_blind_novelty (bs : Nat) (store : List Review)
    (r1 r2 : Review) (hu : UniqueIds store)
    (hx : ∀ row ∈ store, row.externalId ≠ r1.externalId)
    (hid : r2.externalId = r1.externalId) (hbs : 3 ≤ bs) :
    (scrapeRun false bs store [[r1], [r2]]).1.inserted = 2 ∧
    ((scrapeRun false bs store [[r1], [r2]]).1.store.filter
        fun row => row.externalId = r1.externalId).length = 1 ∧
    (scrapeRun false bs store [[r1], [r2]]).1.store.length
      = store.length + 1 ∧
    UniqueIds (scrapeRun false bs store [[r1], [r2]]).1.store := by
  have hany1 : (store.any fun row => row.externalId = r1.externalId)
      = false := by
    cases hA : store.any fun row => row.externalId = r1.externalId
    · rfl
    · rcases List.any_eq_true.mp hA with ⟨row, hm, hidr⟩
      exact absurd (of_decide_eq_true hidr) (hx row hm)
  have hss1 : shouldSaveReview store r1 = true := by
    simp [shouldSaveReview, hany1]
  have hss2 : shouldSaveReview store r2 = true := by
    simp only [shouldSaveReview, hid, hany1]
    rfl
  have hnb1 : ¬ bs ≤ 1 := by omega
  have hnb2 : ¬ bs ≤ 2 := by omega
  have hloop : scrapeLoop false bs (initState store) 1 [[r1], [r2]]
      = ({ store := store, buffer := [r1, r2], inserted := 0,
            consecEmpty := 0 },
         [Event.fetchPage 1, Event.fetchPage 2, Event.fetchPage 3]) := by
    rw [scrapeLoop]
    rw [if_neg (show ¬ (([r1] : List Review).isEmpty = true) by simp)]
    rw [show pageOutcome false bs (initState store) [r1]
        = ({ store := store, buffer := [r1], inserted := 0,
              consecEmpty := 0 }, 1, false) by
      simp [pageOutcome, processPage, initState, List.filter_cons, hss1, hnb1]]
    rw [if_neg (show ¬ (false = true) by simp)]
    dsimp only
    rw [scrapeLoop]
    rw [if_neg (show ¬ (([r2] : List Review).isEmpty = true) by simp)]
    rw [show pageOutcome false bs
        ({ store := store, buffer := [r1], inserted := 0, consecEmpty := 0 }
          : ScrapeState) [r2]
        = ({ store := store, buffer := [r1, r2], inserted := 0,
              consecEmpty := 0 }, 1, false) by
      simp [pageOutcome, processPage, List.filter_cons, hss2, hnb2]]
    rw [if_neg (show ¬ (false = true) by simp)]
    rw [scrapeLoop]
  have hsave : saveReviewBatch store [r1, r2] = store ++ [r1] := by
    have e1 : insertOrIgnore store r1 = store ++ [r1] := by
      simp [insertOrIgnore, hany1]
    have hany12 : ((store ++ [r1]).any
        fun row => row.externalId = r2.externalId) = true :=
      List.any_eq_true.mpr ⟨r1, by simp, by simp [hid]⟩
    have e2 : insertOrIgnore (store ++ [r1]) r2 = store ++ [r1] := by
      simp [insertOrIgnore, hany12]
    show insertOrIgnore (insertOrIgnore store r1) r2 = store ++ [r1]
    rw [e1, e2]
  have hrun : (scrapeRun false bs store [[r1], [r2]]).1
      = { store := store ++ [r1], buffer := [], inserted := 2,
          consecEmpty := 0 } := by
    unfold scrapeRun
    rw [hloop]
    dsimp only
    rw [if_neg (show ¬ (([r1, r2] : List Review).isEmpty = true) by simp)]
    rw [hsave]
    simp
  rw [hrun]
  refine ⟨rfl, ?_, by simp, ?_⟩
  · show ((store ++ [r1]).filter fun row =>
        row.externalId = r1.externalId).length = 1
    rw [List.filter_append]
    rw [List.filter_eq_nil_iff.mpr fun row hm => by simp [hx row hm]]
    simp
  · show UniqueIds (store ++ [r1])
    rw [UniqueIds, List.pairwise_append]
    refine ⟨hu, List.pairwise_singleton _ _, ?_⟩
    intro x hx' y hy
    rcases List.mem_singleton.mp hy with rfl
    exact hx x hx'

/-- Witness for C10: the same external id on two consecutive pages of a
fresh store with the pipeline's batch size of 20. -/
theorem buffer_blind_novelty_witness :
    (scrapeRun false 20 [] [[dupReview1], [dupReview2]]).1.inserted = 2 ∧
    ((scrapeRun false 20 [] [[dupReview1], [dupReview2]]).1.store.filter
        fun row => row.externalId = dupReview1.externalId).length = 1 ∧
    (scrapeRun false 20 [] [[dupReview1], [dupReview2]]).1.store.length
      = 1 := by
  have h := buffer_blind_novelty 20 [] dupReview1 dupReview2
    List.Pairwise.nil
    (fun row hm => absurd hm (List.not_mem_nil row))
    rfl (by omega)
  exact ⟨h.1, h.2.1, h.2.2.1⟩

/-- Helper: a non-dot atom only matches itself. -/
theorem atomMatches_eq_of_ne_dot {p : Char} (c : Char) (h : p ≠ '.') :
    atomMatches p c = decide (p = c) := by
  unfold atomMatches
  simp [h]

/-- Helper: a term without `.` matches a slice iff it equals the slice. -/
theorem termMatches_eq_decide {p : List Char} (s : List Char)
    (h : '.' ∉ p) : termMatches p s = decide (p = s) := by
  induction p generalizing s with
  | nil =>
    cases s with
    | nil => rfl
    | cons c cs => simp [termMatches]
  | cons a as ih =>
    cases s with
    | nil => simp [termMatches]
    | cons c cs =>
      have ha : a ≠ '.' := fun he => h (he ▸ List.mem_cons_self a as)
      have has : '.' ∉ as := fun hm => h (List.mem_cons_of_mem _ hm)
      rw [termMatches, atomMatches_eq_of_ne_dot c ha, ih cs has]
      by_cases h1 : a = c <;> by_cases h2 : as = cs <;> simp [h1, h2]

/-- Helper: for a term without `.`, the regex matcher built by the SQL of
line 76 coincides with the literal whole-word matcher the spec demands. -/
theorem sqlTermMatch_eq_spec {term : String} (text : String)
    (h : '.' ∉ term.toList) :
    sqlTermMatch text term = specLiteralWholeWordMatch text term := by
  simp only [sqlTermMatch, specLiteralWholeWordMatch]
  congr 1
  funext i
  rw [termMatches_eq_decide _ h]
  have hsym : (decide (term.toList
        = (text.toList.drop i).take term.toList.length) : Bool)
      = decide ((text.toList.drop i).take term.toList.length
        = term.toList) :=
    decide_eq_decide.mpr eq_comm
  rw [hsym]

/-- Helper: the executable literal whole-word matcher decides exactly the
declarative whole-word-occurrence property of the claim. -/
theorem specLiteral_iff_wholeWord (text term : String) :
    specLiteralWholeWordMatch text term = true ↔
      WholeWordOccurrence text.toList term.toList := by
  simp only [specLiteralWholeWordMatch]
  rw [List.any_eq_true]
  unfold WholeWordOccurrence
  constructor
  · rintro ⟨i, hiR, hcond⟩
    rw [Bool.and_eq_true, Bool.and_eq_true] at hcond
    obtain ⟨⟨hsl, hbb⟩, hba⟩ := hcond
    have hslice := of_decide_eq_true hsl
    have hi : i < text.toList.length + 1 := List.mem_range.mp hiR
    have hlen : i + term.toList.length ≤ text.toList.length := by
      have hlen1 := congrArg List.length hslice
      simp only [List.length_take, List.length_drop] at hlen1
      omega
    simp only [boundaryBefore, Bool.or_eq_true, decide_eq_true_eq,
      Bool.not_eq_true'] at hbb
    simp only [boundaryAfter, Bool.or_eq_true, decide_eq_true_eq,
      Bool.not_eq_true'] at hba
    refine ⟨i, hlen, hslice, ?_, ?_⟩
    · rcases hbb with h0 | hf
      · exact Or.inl h0
      · exact Or.inr ⟨_, rfl, hf⟩
    · rcases hba with h0 | hf
      · exact Or.inl (by omega)
      · exact Or.inr ⟨_, rfl, hf⟩
  · rintro ⟨i, hlen, hslice, hbefore, hafter⟩
    refine ⟨i, List.mem_range.mpr (by omega), ?_⟩
    rw [Bool.and_eq_true, Bool.and_eq_true]
    refine ⟨⟨decide_eq_true hslice, ?_⟩, ?_⟩
    · simp only [boundaryBefore, Bool.or_eq_true, decide_eq_true_eq,
        Bool.not_eq_true']
      rcases hbefore with h0 | ⟨c, hc, hf⟩
      · exact Or.inl h0
      · exact Or.inr (by rw [hc]; exact hf)
    · simp only [boundaryAfter, Bool.or_eq_true, decide_eq_true_eq,
        Bool.not_eq_true']
      rcases hafter with h0 | ⟨c, hc, hf⟩
      · exact Or.inl (by omega)
      · exact Or.inr (by rw [hc]; exact hf)

/-- C6 (counterexample): the claimed equivalence is not true of every topic:
a topic whose search term contains the regex-special character `.` (term
`a.c`) matches the text `my abc broke` although none of its terms occurs in
that text as a literal whole word. -/
theorem topic_matching_counterexample :
    topicMatchesText dottedTopic "my abc broke" = true ∧
    ¬ ∃ term ∈ dottedTopic.searchTerms,
        WholeWordOccurrence "my abc broke".toList term.toList := by
  refine ⟨by decide, ?_⟩
  rintro ⟨term, hmem, hocc⟩
  have hterm : term = "a.c" := List.mem_singleton.mp hmem
  subst hterm
  have h := (specLiteral_iff_wholeWord "my abc broke" "a.c").mpr hocc
  exact absurd h (by decide)

/-- C6 (amended): for review texts and topics whose search terms are free of
regex-special characters, the topic matches the working text iff at least
one of its search terms occurs in it as a whole word — bounded on both sides
by a non-letter character or the string boundary; in particular the
lower-cased working text of a review saying `My car broke` matches the term
`car`, while `I love this care package` does not.  (For a term containing a
regex-special character the equivalence fails, as the counterexample above
shows.) -/
theorem topic_word_boundary_matching (topic : Topic) (w : String)
    (hlit : ∀ term ∈ topic.searchTerms, ∀ c ∈ term.toList,
      c ∉ regexSpecials) :
    (topicMatchesText topic w = true ↔
      ∃ term ∈ topic.searchTerms,
        WholeWordOccurrence w.toList term.toList) ∧
    reviewWorkingText carReview = some "my car broke" ∧
    sqlTermMatch "my car broke" "car" = true ∧
    reviewWorkingText careReview = some "i love this care package" ∧
    sqlTermMatch "i love this care package" "car" = false := by
  refine ⟨?_, by decide, by decide, by decide, by decide⟩
  unfold topicMatchesText
  rw [List.any_eq_true]
  constructor
  · rintro ⟨term, hmem, hmatch⟩
    have hnodot : '.' ∉ term.toList := fun hdot =>
      hlit term hmem '.' hdot (by decide)
    rw [sqlTermMatch_eq_spec w hnodot] at hmatch
    exact ⟨term, hmem, (specLiteral_iff_wholeWord w term).mp hmatch⟩
  · rintro ⟨term, hmem, hocc⟩
    have hnodot : '.' ∉ term.toList := fun hdot =>
      hlit term hmem '.' hdot (by decide)
    refine ⟨term, hmem, ?_⟩
    rw [sqlTermMatch_eq_spec w hnodot]
    exact (specLiteral_iff_wholeWord w term).mpr hocc

/-- Witness for C6 on the topic with literal search term `car`. -/
theorem topic_word_boundary_matching_witness :
    (topicMatchesText vehicleTopic "my car broke" = true ↔
      ∃ term ∈ vehicleTopic.searchTerms,
        WholeWordOccurrence "my car broke".toList term.toList) ∧
    sqlTermMatch "my car broke" "car" = true := by
  have h := topic_word_boundary_matching vehicleTopic "my car broke"
    (by decide)
  exact ⟨h.1, h.2.2.1⟩

/-- C7 (counterexample): the term `a.c` — which contains the regex-special
character `.` — matches the text `my abc broke` under the pattern the code
builds, although `a.c` has no literal whole-word occurrence in that text:
the conversion does not escape regex-special characters. -/
theorem term_escaping_counterexample :
    sqlTermMatch "my abc broke" "a.c" = true ∧
    specLiteralWholeWordMatch "my abc broke" "a.c" = false ∧
    ¬ WholeWordOccurrence "my abc broke".toList "a.c".toList := by
  refine ⟨by decide, by decide, fun hocc => ?_⟩
  have h := (specLiteral_iff_wholeWord "my abc broke" "a.c").mpr hocc
  exact absurd h (by decide)

/-- C7 (amended): the search term is spliced into the match expression by
raw string concatenation with no escaping step, so regex-special characters
keep their regex meaning: a term free of special characters is still
matched as a literal whole word, but `.` inside a term acts as the
any-character wildcard (`a.c` matches `abc`, `axc` and `a.c` alike). -/
theorem term_spliced_unescaped :
    (∀ term : String,
      buildPattern term = "(^|[^a-z])" ++ term ++ "([^a-z]|$)") ∧
    (∀ text term : String, (∀ c ∈ term.toList, c ∉ regexSpecials) →
      (sqlTermMatch text term = true ↔
        WholeWordOccurrence text.toList term.toList)) ∧
    sqlTermMatch "my abc broke" "a.c" = true ∧
    sqlTermMatch "my axc broke" "a.c" = true ∧
    sqlTermMatch "my a.c broke" "a.c" = true ∧
    specLiteralWholeWordMatch "my abc broke" "a.c" = false := by
  refine ⟨fun _ => rfl, ?_, by decide, by decide, by decide, by decide⟩
  intro text term h
  have hnodot : '.' ∉ term.toList := fun hdot => h '.' hdot (by decide)
  rw [sqlTermMatch_eq_spec text hnodot]
  exact specLiteral_iff_wholeWord text term

/-- C8 (code-bug evidence): `pipeline.py` line 168 calls
`generate_weekly_report(self.db, domain, iso_week)` with three arguments,
but the function defined at `generate_weekly_report.py` line 191 takes two
parameters `(company_name, iso_week)` — the call cannot hand over the
pipeline's shared session — and the function body constructs its own
storage session (`db = Database()`, line 203) for every call. -/
theorem pipeline_report_session_bug :
    pipelineReportCallArgCount ≠ generateWeeklyReportParamCount ∧
    sessionsConstructedPerReportCall = 1 := by decide

end Nmeg
